import Mathlib

/-!
Verification of the product-price-tracker service (Go, SQLite) against its
specification.  The Go code is shallowly embedded: the SQLite store is a pure
state (`DBState`), the tracker's in-memory registry is an association list,
and every store / tracker / API operation used by the claims is a Lean
function translated from the corresponding Go function.  Go `float64` values
are modelled by `FVal`, which keeps the IEEE-754 distinctions (finite value,
NaN, the two infinities) that the worker's `price > 0` guard can observe.
-/

namespace PriceTrack

/-- Value space of a Go `float64` as the tracker observes it: a finite real
(represented as a rational, since every finite double is rational), a NaN, or
one of the two infinities. -/
inductive FVal where
  | finite (q : ℚ)
  | nan
  | posInf
  | negInf
deriving DecidableEq, Repr

/-- Go comparison `price > 0` as evaluated in `priceWorker` under IEEE-754:
false for NaN and every non-positive value, true for every strictly positive
finite value and for `+Inf`. -/
def FVal.gtZero : FVal → Bool
  | .finite q => decide (0 < q)
  | .nan => false
  | .posInf => true
  | .negInf => false

/-- The value is a finite, strictly positive number (the spec's
"finite-positive"). -/
def FVal.isFinitePos : FVal → Bool
  | .finite q => decide (0 < q)
  | _ => false

/-- Row of the `products` table / Go struct `Product` (models.go). -/
structure Product where
  id : String
  name : String
  url : String
deriving DecidableEq, Repr

/-- Row of the `price_entries` table / Go struct `PriceEntry` (models.go). -/
structure PriceEntry where
  id : Nat
  productID : String
  price : FVal
  timestamp : Nat
deriving DecidableEq, Repr

/-- Go struct `ProductWithLatestPrice` (models.go): a product together with
its optional latest price and the timestamp of that price. -/
structure ProductWithLatestPrice where
  product : Product
  latestPrice : Option FVal
  lastUpdated : Option Nat
deriving DecidableEq, Repr

/-- State of the SQLite database: the `products` table and the
`price_entries` table (database.go, `createTables`). -/
structure DBState where
  products : List Product
  entries : List PriceEntry
deriving DecidableEq, Repr

/-- Store-level I/O fault, used where a claim quantifies over a failing
store call. -/
inductive StoreErr where
  | ioFailure
deriving DecidableEq, Repr

/-- Database.InsertProduct (database.go): `INSERT OR REPLACE INTO products`.
A primary-key conflict is resolved by replacing the conflicting row with the
new one; it is never reported as an error. -/
def DBState.insertProduct (db : DBState) (p : Product) : DBState :=
  { db with products := db.products.filter (fun q => q.id != p.id) ++ [p] }

/-- Database.InsertPriceEntry (database.go): `INSERT INTO price_entries
(product_id, price, timestamp) VALUES (?, ?, ?)`.  The schema declares
`FOREIGN KEY (product_id) REFERENCES products (id)`, but the connection never
executes `PRAGMA foreign_keys = ON`, and SQLite keeps foreign-key enforcement
off by default; the insert therefore succeeds whether or not `product_id`
matches any row of `products`. -/
def DBState.insertPriceEntry (db : DBState) (pid : String) (price : FVal)
    (ts : Nat) : DBState :=
  { db with entries := db.entries ++
      [{ id := db.entries.length + 1, productID := pid, price := price,
         timestamp := ts }] }

/-- Modelled from the spec: the Store contract `AppendMeasurement` with
referential integrity enforced, i.e. an insert whose `product_id` matches no
product row is rejected.  This is what the spec asserts the store does; it is
compared against `DBState.insertPriceEntry`, which is what the code does. -/
def DBState.insertPriceEntryEnforced (db : DBState) (pid : String)
    (price : FVal) (ts : Nat) : Option DBState :=
  if db.products.any (fun p => p.id == pid) then
    some (db.insertPriceEntry pid price ts)
  else none

/-- Referential integrity of a database state: every price entry's
`product_id` references an existing product row. -/
def DBState.refIntegrity (db : DBState) : Prop :=
  ∀ e ∈ db.entries, ∃ p ∈ db.products, p.id = e.productID

instance (db : DBState) : Decidable db.refIntegrity := by
  unfold DBState.refIntegrity; infer_instance

/-- Database.ProductExists (database.go): `SELECT COUNT(*) FROM products
WHERE id = ?`, reported as `count > 0`. -/
def DBState.productCount (db : DBState) (pid : String) : Nat :=
  (db.products.filter (fun p => p.id == pid)).length

/-- The boolean the Go code derives from `ProductExists`. -/
def DBState.productExists (db : DBState) (pid : String) : Bool :=
  decide (0 < db.productCount pid)

/-- Ordering used by `ORDER BY timestamp DESC`: entry `a` may precede entry
`b` exactly when `b`'s timestamp is at most `a`'s. -/
def tsDesc (a b : PriceEntry) : Prop := b.timestamp ≤ a.timestamp

instance : DecidableRel tsDesc := fun a b => Nat.decLe b.timestamp a.timestamp

instance : IsTotal PriceEntry tsDesc :=
  ⟨fun a b => Nat.le_total b.timestamp a.timestamp⟩

instance : IsTrans PriceEntry tsDesc :=
  ⟨fun _ _ _ h h2 => Nat.le_trans h2 h⟩

/-- Ordering used by `ORDER BY p.name` (ascending). -/
def nameAsc (p q : Product) : Prop := p.name ≤ q.name

instance : DecidableRel nameAsc := fun p q =>
  inferInstanceAs (Decidable (p.name ≤ q.name))

instance : IsTotal Product nameAsc := ⟨fun p q => le_total p.name q.name⟩

instance : IsTrans Product nameAsc := ⟨fun _ _ _ h h2 => le_trans h h2⟩

/-- Rows of `price_entries` for one product id (the `WHERE product_id = ?`
filter). -/
def DBState.entriesFor (db : DBState) (pid : String) : List PriceEntry :=
  db.entries.filter (fun e => e.productID == pid)

/-- Database.GetPriceHistory (database.go): `SELECT ... FROM price_entries
WHERE product_id = ? ORDER BY timestamp DESC LIMIT ?`. -/
def DBState.getPriceHistory (db : DBState) (pid : String) (limit : Nat) :
    List PriceEntry :=
  ((db.entriesFor pid).insertionSort tsDesc).take limit

/-- The row the `LEFT JOIN` subquery of `GetProductsWithLatestPrices` selects
for one product: the first row of that product's entries ordered by
`timestamp DESC` (`ROW_NUMBER ... = 1`), when any entry exists. -/
def DBState.latestFor (db : DBState) (pid : String) : Option PriceEntry :=
  ((db.entriesFor pid).insertionSort tsDesc).head?

/-- Assembly of one result row of `GetProductsWithLatestPrices`: the product,
joined with its latest price and timestamp when present, NULLs otherwise. -/
def DBState.itemFor (db : DBState) (p : Product) : ProductWithLatestPrice :=
  match db.latestFor p.id with
  | none => ⟨p, none, none⟩
  | some e => ⟨p, some e.price, some e.timestamp⟩

/-- Database.GetProductsWithLatestPrices (database.go): products ordered by
name ascending, each LEFT JOINed with its newest price entry. -/
def DBState.getProductsWithLatestPrices (db : DBState) :
    List ProductWithLatestPrice :=
  (db.products.insertionSort nameAsc).map db.itemFor

/-- State of the PriceTracker (tracker.go): the database handle plus the
in-memory `products` map, modelled as an association list with map-update
(overwrite) semantics. -/
structure TrackerState where
  db : DBState
  registry : List (String × Product)
deriving DecidableEq, Repr

/-- Insertion into the Go map `pt.products` (overwrites any prior binding of
the key). -/
def regInsert (m : List (String × Product)) (k : String) (v : Product) :
    List (String × Product) :=
  m.filter (fun kv => kv.1 != k) ++ [(k, v)]

/-- Lookup in the Go map `pt.products`. -/
def regLookup (m : List (String × Product)) (k : String) : Option Product :=
  (m.find? (fun kv => kv.1 == k)).map (fun kv => kv.2)

/-- First `products` row with the given id (unique when ids are unique). -/
def DBState.findProduct (db : DBState) (pid : String) : Option Product :=
  db.products.find? (fun q => q.id == pid)

/-- PriceTracker.AddProduct (tracker.go): write the product to the database
with `InsertProduct`; on success insert it into the in-memory map and return
nil.  `InsertProduct` uses `INSERT OR REPLACE`, so a duplicate id is an
upsert, never a constraint error. -/
def TrackerState.addProduct (ts : TrackerState) (p : Product) :
    Except StoreErr TrackerState :=
  Except.ok { db := ts.db.insertProduct p,
              registry := regInsert ts.registry p.id p }

/-- PriceTracker.GetProducts (tracker.go): on a store read failure the error
is logged and an empty slice is returned; otherwise the rows are returned
unchanged.  The read result of `GetProductsWithLatestPrices` (which can fail
at the SQL layer) is passed in explicitly. -/
def trackerGetProducts
    (readRes : Except StoreErr (List ProductWithLatestPrice)) :
    List ProductWithLatestPrice :=
  match readRes with
  | .ok l => l
  | .error _ => []

/-- HTTP status the spec's generic `InternalError` would correspond to. -/
def httpInternalError : Nat := 500

/-- HTTP status 200 OK. -/
def httpOK : Nat := 200

/-- APIServer.handleGetProducts (api.go): calls `tracker.GetProducts` and
always writes status 200 with the returned list as the JSON body. -/
def handleGetProducts
    (readRes : Except StoreErr (List ProductWithLatestPrice)) :
    Nat × List ProductWithLatestPrice :=
  (httpOK, trackerGetProducts readRes)

/-- Tracker-level error of `GetPriceHistory` (tracker.go): the "product not
found" error built with `fmt.Errorf`. -/
inductive TrackerErr where
  | productNotFound (pid : String)
deriving DecidableEq, Repr

/-- PriceTracker.GetPriceHistory (tracker.go): check `ProductExists`, answer
"product not found" when the count is zero, otherwise query the history.
Store reads are assumed to succeed (the claim's hypothesis); their error
branches only propagate the store error. -/
def TrackerState.getPriceHistory (ts : TrackerState) (pid : String)
    (limit : Nat) : Except TrackerErr (List PriceEntry) :=
  if ts.db.productExists pid then Except.ok (ts.db.getPriceHistory pid limit)
  else Except.error (TrackerErr.productNotFound pid)

/-- One iteration of the loop body of `priceWorker` (tracker.go) for one
received product: fetch the price, and forward a `PriceEntry` to the result
channel exactly when `price > 0`; otherwise forward nothing.  The entry's
database id is not assigned yet (zero value in Go). -/
def workerForward (pid : String) (price : FVal) (now : Nat) :
    Option PriceEntry :=
  if price.gtZero then
    some { id := 0, productID := pid, price := price, timestamp := now }
  else none

/-- Fetch log of one worker: `priceWorker` calls `fetchPrice` exactly once
per product received from the channel, in receipt order; the log records the
fetched products' ids. -/
def workerFetchLog (assigned : List Product) : List String :=
  assigned.map (fun p => p.id)

/-- Fetch log of one round, given how the (closed, drained) product channel
distributed the snapshot among the workers: `assignment` lists, per worker,
the products that worker received. -/
def roundFetchLog (assignment : List (List Product)) : List String :=
  (assignment.map workerFetchLog).flatten

/-- The collector loop of `trackAllProducts` (tracker.go): drain the result
channel in order, issuing one `InsertPriceEntry` per entry; a failed insert
is only logged and the loop continues with the next entry.  `failsOn` is the
injected store-fault model (which inserts the store rejects).  Returns the
final store state and the list of entries for which a persistence attempt
was issued, in order. -/
def collect (failsOn : PriceEntry → Bool) :
    List PriceEntry → DBState → DBState × List PriceEntry
  | [], db => (db, [])
  | e :: rest, db =>
    let db1 := if failsOn e then db
               else db.insertPriceEntry e.productID e.price e.timestamp
    let res := collect failsOn rest db1
    (res.1, e :: res.2)

/-- The data of a `price_entries` row apart from its autoincrement key. -/
def rowData (e : PriceEntry) : String × FVal × Nat :=
  (e.productID, e.price, e.timestamp)

/-- trackAllProducts (tracker.go), sequential semantics: if the registry
snapshot is empty, return immediately; otherwise fetch each snapshot product
once, forward the entries whose price compares greater than zero, and run the
collector over the forwarded results.  Returns the final store state, the
number of `fetchPrice` calls issued, and the entries given a persistence
attempt. -/
def trackRound (snapshot : List Product) (fetchVal : Product → FVal)
    (now : Nat) (failsOn : PriceEntry → Bool) (db : DBState) :
    DBState × Nat × List PriceEntry :=
  if snapshot.isEmpty then (db, 0, [])
  else
    let results := snapshot.filterMap
      (fun p => workerForward p.id (fetchVal p) now)
    let col := collect failsOn results db
    (col.1, snapshot.length, col.2)

/-!
Helper lemmas shared between the claim theorems.
-/

open List

lemma productExists_iff (db : DBState) (pid : String) :
    db.productExists pid = true ↔ ∃ p ∈ db.products, p.id = pid := by
  unfold DBState.productExists DBState.productCount
  simp [← List.countP_eq_length_filter, List.countP_pos_iff]

lemma head_max_of_sorted {l : List PriceEntry} {e : PriceEntry}
    (hs : List.Sorted tsDesc l) (hh : l.head? = some e) :
    ∀ b ∈ l, b.timestamp ≤ e.timestamp := by
  cases l with
  | nil => cases hh
  | cons a t =>
    have ha : a = e := by simpa using hh
    subst ha
    intro b hb
    rcases List.mem_cons.mp hb with rfl | hbt
    · exact Nat.le_refl _
    · exact List.rel_of_sorted_cons hs b hbt

lemma mem_entriesFor {db : DBState} {pid : String} {e : PriceEntry} :
    e ∈ db.entriesFor pid ↔ e ∈ db.entries ∧ e.productID = pid := by
  unfold DBState.entriesFor
  simp [List.mem_filter]

lemma latestFor_none_iff (db : DBState) (pid : String) :
    db.latestFor pid = none ↔ db.entriesFor pid = [] := by
  unfold DBState.latestFor
  rw [List.head?_eq_none_iff]
  constructor
  · intro h
    have hp := List.perm_insertionSort tsDesc (db.entriesFor pid)
    rw [h] at hp
    exact hp.symm.eq_nil
  · intro h
    rw [h]
    rfl

lemma latestFor_mem_max {db : DBState} {pid : String} {e : PriceEntry}
    (h : db.latestFor pid = some e) :
    e ∈ db.entriesFor pid ∧
      ∀ b ∈ db.entriesFor pid, b.timestamp ≤ e.timestamp := by
  unfold DBState.latestFor at h
  have hs := List.sorted_insertionSort tsDesc (db.entriesFor pid)
  have hmem : e ∈ (db.entriesFor pid).insertionSort tsDesc := by
    cases hl : (db.entriesFor pid).insertionSort tsDesc with
    | nil => rw [hl] at h; cases h
    | cons a t =>
      rw [hl] at h
      have ha : a = e := by simpa using h
      exact ha ▸ List.mem_cons_self _ _
  constructor
  · simpa using hmem
  · intro b hb
    have hb2 : b ∈ (db.entriesFor pid).insertionSort tsDesc := by simpa using hb
    exact head_max_of_sorted hs h b hb2

lemma itemFor_product (db : DBState) (p : Product) :
    (db.itemFor p).product = p := by
  unfold DBState.itemFor
  split <;> rfl

lemma findProduct_insertProduct (db : DBState) (p : Product) :
    (db.insertProduct p).findProduct p.id = some p := by
  unfold DBState.insertProduct DBState.findProduct
  rw [List.find?_append]
  have h1 : (db.products.filter (fun q => q.id != p.id)).find?
      (fun q => q.id == p.id) = none := by
    rw [List.find?_eq_none]
    intro x hx
    have h2 : ¬ x.id = p.id := by
      simpa using (List.mem_filter.mp hx).2
    simp [h2]
  rw [h1]
  simp

lemma filter_id_insertProduct (db : DBState) (p : Product) :
    (db.insertProduct p).products.filter (fun q => q.id == p.id) = [p] := by
  unfold DBState.insertProduct
  rw [List.filter_append]
  have h1 : (db.products.filter (fun q => q.id != p.id)).filter
      (fun q => q.id == p.id) = [] := by
    rw [List.filter_eq_nil_iff]
    intro x hx
    have h2 : ¬ x.id = p.id := by
      simpa using (List.mem_filter.mp hx).2
    simp [h2]
  rw [h1]
  simp

lemma regLookup_regInsert (m : List (String × Product)) (k : String)
    (v : Product) : regLookup (regInsert m k v) k = some v := by
  unfold regLookup regInsert
  rw [List.find?_append]
  have h1 : (m.filter (fun kv => kv.1 != k)).find?
      (fun kv => kv.1 == k) = none := by
    rw [List.find?_eq_none]
    intro x hx
    have h2 : ¬ x.1 = k := by
      simpa using (List.mem_filter.mp hx).2
    simp [h2]
  rw [h1]
  simp

/-!
Claim theorems.
-/

/-- C1, counterexample: the claim states that a `PriceEntry` is forwarded if
and only if the fetched value is finite and strictly positive, and that any
infinite value is discarded.  At the concrete fetched value `+Inf` the
worker's guard `price > 0` evaluates to true, so the entry IS forwarded even
though the value is not finite: the stated equivalence is false. -/
theorem C1_counterexample :
    (workerForward "laptop-1" FVal.posInf 0).isSome = true ∧
      FVal.isFinitePos FVal.posInf = false := by
  exact ⟨rfl, rfl⟩

/-- C1, amended: during a tracking round a `PriceEntry` is forwarded to the
collector if and only if the fetched value compares strictly greater than
zero under IEEE-754 semantics, i.e. exactly when it is a finite strictly
positive number or `+Inf`.  Non-positive values, `-Inf` and NaN are silently
discarded (no retry, no surfaced error), so a non-positive or NaN measurement
is never forwarded for persistence — but a `+Inf` value would be. -/
theorem C1_forward_iff_positive_or_posInf (pid : String) (v : FVal)
    (now : Nat) :
    (workerForward pid v now).isSome = true ↔
      (v.isFinitePos = true ∨ v = FVal.posInf) := by
  cases v with
  | finite q =>
    by_cases h : 0 < q <;>
      simp [workerForward, FVal.gtZero, FVal.isFinitePos, h]
  | nan => simp [workerForward, FVal.gtZero, FVal.isFinitePos]
  | posInf => simp [workerForward, FVal.gtZero, FVal.isFinitePos]
  | negInf => simp [workerForward, FVal.gtZero, FVal.isFinitePos]

/-- C2: the claim states that `InsertPriceEntry` cannot create a
`price_entries` row whose `product_id` has no matching `products` row,
referential integrity being enforced by the store.  Evaluating the code's
insert on an empty store at product id "ghost" shows the row is inserted and
referential integrity is violated, while the spec's enforced variant of the
same insert rejects it.  (The schema declares the foreign key, but the code
never runs `PRAGMA foreign_keys = ON`, which SQLite requires for the
constraint to be enforced.) -/
theorem C2_dangling_insert_accepted :
    ((DBState.mk [] []).insertPriceEntry "ghost" (FVal.finite 10) 5).entries.length
        = 1 ∧
      ¬ DBState.refIntegrity
        ((DBState.mk [] []).insertPriceEntry "ghost" (FVal.finite 10) 5) ∧
      (DBState.mk [] []).insertPriceEntryEnforced "ghost" (FVal.finite 10) 5
        = none := by
  refine ⟨rfl, ?_, rfl⟩
  intro h
  rcases h { id := 1, productID := "ghost", price := FVal.finite 10,
             timestamp := 5 } (by simp [DBState.insertPriceEntry]) with
    ⟨p, hp, _⟩
  simp [DBState.insertPriceEntry] at hp

/-- C4, counterexample: the claim states that when the store read behind
`ListTracked` fails the API caller sees a generic InternalError response.
At a concrete failing read the handler instead answers HTTP 200 with an
empty product list. -/
theorem C4_counterexample :
    handleGetProducts (Except.error StoreErr.ioFailure) = (httpOK, []) ∧
      (handleGetProducts (Except.error StoreErr.ioFailure)).1
        ≠ httpInternalError := by
  exact ⟨rfl, by decide⟩

/-- C4, amended: whenever the store read behind `ListTracked`
(`GetProductsWithLatestPrices`) fails, the failure is only logged and the API
caller receives a successful HTTP 200 response carrying an empty product
list: the store fault is silently converted into an empty success, the
generic InternalError is never produced by this endpoint, and API callers
never see partial-round fetch failures (the response depends only on the
store read, not on any round's fetch outcomes). -/
theorem C4_store_fault_becomes_empty_ok (e : StoreErr) :
    handleGetProducts (Except.error e) = (httpOK, []) := rfl

/-- C9: if the registry snapshot taken at the start of a tracking round is
empty, the round returns immediately: no fetch is invoked, no measurement is
forwarded or given a persistence attempt, and the store state is unchanged. -/
theorem C9_empty_snapshot_is_noop (fetchVal : Product → FVal) (now : Nat)
    (failsOn : PriceEntry → Bool) (db : DBState) :
    trackRound [] fetchVal now failsOn db = (db, 0, []) := rfl

/-- C3: registering a product whose id is already present in the store is not
a hard failure: `AddProduct` applies the write as an upsert in which the last
registration wins — afterwards the stored row for that id is exactly the new
product (new name and URL), the call returns success, and the product is
visible in the in-memory registry. -/
theorem C3_duplicate_registration_is_upsert (ts : TrackerState) (p : Product)
    (h : ∃ q ∈ ts.db.products, q.id = p.id) :
    ∃ ts2, ts.addProduct p = Except.ok ts2 ∧
      ts2.db.findProduct p.id = some p ∧
      ts2.db.products.filter (fun q => q.id == p.id) = [p] ∧
      regLookup ts2.registry p.id = some p := by
  refine ⟨_, rfl, ?_, ?_, ?_⟩
  · exact findProduct_insertProduct ts.db p
  · exact filter_id_insertProduct ts.db p
  · exact regLookup_regInsert ts.registry p.id p

/-- Tracker state used to instantiate the C3 theorem: one registered product
with id "laptop-1". -/
def tsC3 : TrackerState :=
  { db := { products := [⟨"laptop-1", "Old Laptop", "https://old"⟩],
            entries := [] },
    registry := [("laptop-1", ⟨"laptop-1", "Old Laptop", "https://old"⟩)] }

/-- Re-registration of id "laptop-1" with a new name and URL. -/
def pC3 : Product := ⟨"laptop-1", "Gaming Laptop", "https://new"⟩

/-- Witness for C3 at a concrete duplicate registration. -/
theorem C3_witness :
    (∃ q ∈ tsC3.db.products, q.id = pC3.id) ∧
      ∃ ts2, tsC3.addProduct pC3 = Except.ok ts2 ∧
        ts2.db.findProduct pC3.id = some pC3 ∧
        ts2.db.products.filter (fun q => q.id == pC3.id) = [pC3] ∧
        regLookup ts2.registry pC3.id = some pC3 :=
  ⟨by decide, C3_duplicate_registration_is_upsert tsC3 pC3 (by decide)⟩

/-- C5: for every store state, product id and limit of at least one,
`GetPriceHistory` returns a sequence of at most `limit` measurements, ordered
newest-first by timestamp, all of which are measurements of the requested
product taken from the store. -/
theorem C5_history_newest_first_capped (db : DBState) (pid : String)
    (limit : Nat) (h : 1 ≤ limit) :
    (db.getPriceHistory pid limit).length ≤ limit ∧
      List.Sorted tsDesc (db.getPriceHistory pid limit) ∧
      ∀ e ∈ db.getPriceHistory pid limit,
        e ∈ db.entries ∧ e.productID = pid := by
  refine ⟨?_, ?_, ?_⟩
  · unfold DBState.getPriceHistory
    rw [List.length_take]
    exact min_le_left _ _
  · unfold DBState.getPriceHistory
    exact (List.sorted_insertionSort tsDesc _).sublist (List.take_sublist _ _)
  · intro e he
    unfold DBState.getPriceHistory at he
    have h1 : e ∈ (db.entriesFor pid).insertionSort tsDesc :=
      (List.take_sublist _ _).subset he
    have h2 : e ∈ db.entriesFor pid := by simpa using h1
    exact mem_entriesFor.mp h2

/-- Store state used to instantiate the C5 theorem: two price entries for
"laptop-1" stored oldest-first. -/
def dbC5 : DBState :=
  { products := [⟨"laptop-1", "Gaming Laptop", "https://a"⟩],
    entries := [⟨1, "laptop-1", FVal.finite 10, 3⟩,
                ⟨2, "laptop-1", FVal.finite 12, 7⟩] }

/-- Witness for C5 at a concrete store state and limit 1. -/
theorem C5_witness :
    (dbC5.getPriceHistory "laptop-1" 1).length ≤ 1 ∧
      List.Sorted tsDesc (dbC5.getPriceHistory "laptop-1" 1) ∧
      ∀ e ∈ dbC5.getPriceHistory "laptop-1" 1,
        e ∈ dbC5.entries ∧ e.productID = "laptop-1" :=
  C5_history_newest_first_capped dbC5 "laptop-1" 1 (by decide)

/-- C6: with store reads succeeding (the pure store model), the tracker's
`GetPriceHistory` answers the "product not found" error exactly when the
requested id matches no product row of the store; for every id that is
present, the call never returns that error. -/
theorem C6_notFound_iff_unknown_id (ts : TrackerState) (pid : String)
    (limit : Nat) :
    ts.getPriceHistory pid limit
        = Except.error (TrackerErr.productNotFound pid) ↔
      ¬ ∃ p ∈ ts.db.products, p.id = pid := by
  unfold TrackerState.getPriceHistory
  by_cases h : ts.db.productExists pid = true
  · have hex := (productExists_iff ts.db pid).mp h
    rw [if_pos h]
    simp [hex]
  · have hex : ¬ ∃ p ∈ ts.db.products, p.id = pid :=
      fun hc => h ((productExists_iff ts.db pid).mpr hc)
    rw [if_neg h]
    simp [hex]

/-- C7: for every snapshot of N products taken at the start of a round, and
every way the drained product channel can distribute the snapshot among the
workers (each sent product is received by exactly one worker, exactly once —
i.e. the concatenation of the workers' receipt lists is a permutation of the
snapshot), the round's fetch log is a permutation of the snapshot's ids:
exactly N fetch attempts are issued in total, and each snapshot entry is
fetched exactly as often as it occurs in the snapshot — once, by a single
worker, for each occurrence. -/
theorem C7_exactly_one_fetch_per_entity (assignment : List (List Product))
    (snapshot : List Product) (h : assignment.flatten ~ snapshot) :
    roundFetchLog assignment ~ snapshot.map Product.id ∧
      (roundFetchLog assignment).length = snapshot.length ∧
      ∀ pid, (roundFetchLog assignment).count pid
        = (snapshot.map Product.id).count pid := by
  have h1 : roundFetchLog assignment
      = (assignment.flatten).map Product.id := by
    unfold roundFetchLog workerFetchLog
    exact (List.map_flatten _ _).symm
  have h2 : roundFetchLog assignment ~ snapshot.map Product.id := by
    rw [h1]
    exact h.map Product.id
  refine ⟨h2, ?_, fun pid => h2.count_eq pid⟩
  rw [h2.length_eq, List.length_map]

/-- Product "laptop-1" of the sample data. -/
def pA : Product := ⟨"laptop-1", "Gaming Laptop", "https://a"⟩

/-- Product "phone-1" of the sample data. -/
def pB : Product := ⟨"phone-1", "Smartphone X", "https://b"⟩

/-- Product "tablet-1" of the sample data. -/
def pC : Product := ⟨"tablet-1", "Tablet Pro", "https://c"⟩

/-- Witness for C7: a three-product snapshot distributed over two workers in
an order different from the snapshot order. -/
theorem C7_witness :
    roundFetchLog [[pB], [pA, pC]] ~ ([pA, pB, pC].map Product.id) ∧
      (roundFetchLog [[pB], [pA, pC]]).length
        = ([pA, pB, pC] : List Product).length ∧
      ∀ pid, (roundFetchLog [[pB], [pA, pC]]).count pid
        = (([pA, pB, pC] : List Product).map Product.id).count pid :=
  C7_exactly_one_fetch_per_entity [[pB], [pA, pC]] [pA, pB, pC] (by decide)

/-- C8: the collector attempts to persist every measurement of the round no
matter which store writes fail: the list of entries given a persistence
attempt is the whole result list (a failed insert is only logged, never
aborts the loop and never suppresses a later attempt), and the store gains
exactly the rows of the successfully inserted measurements, in order — the
failed ones are lost without retry and the others are unaffected. -/
theorem C8_persistence_failure_isolated (failsOn : PriceEntry → Bool)
    (results : List PriceEntry) (db : DBState) :
    (collect failsOn results db).2 = results ∧
      (collect failsOn results db).1.entries.map rowData
        = db.entries.map rowData
          ++ (results.filter (fun e => !failsOn e)).map rowData := by
  induction results generalizing db with
  | nil => simp [collect]
  | cons e rest ih =>
    by_cases hf : failsOn e
    · have h1 := ih db
      simp [collect, hf, h1.1, h1.2]
    · have h1 := ih (db.insertPriceEntry e.productID e.price e.timestamp)
      have h2 : (db.insertPriceEntry e.productID e.price e.timestamp).entries.map
          rowData = db.entries.map rowData ++ [rowData e] := by
        simp [DBState.insertPriceEntry, rowData]
      simp [collect, hf, h1.1, h1.2, h2, rowData]

/-- C10: for every store state, `GetProductsWithLatestPrices` (behind the
tracker's `GetProducts`) returns exactly the tracked products, ordered by
name ascending; each result row carries the product's most recent price and
that price's timestamp when the product has at least one measurement, and no
price and no timestamp otherwise. -/
theorem C10_products_by_name_with_latest (db : DBState) :
    List.Sorted (fun a b => a.product.name ≤ b.product.name)
        db.getProductsWithLatestPrices ∧
      db.getProductsWithLatestPrices.map ProductWithLatestPrice.product
        ~ db.products ∧
      ∀ item ∈ db.getProductsWithLatestPrices,
        (db.entriesFor item.product.id = [] →
          item.latestPrice = none ∧ item.lastUpdated = none) ∧
        (db.entriesFor item.product.id ≠ [] →
          ∃ m ∈ db.entriesFor item.product.id,
            item.latestPrice = some m.price ∧
            item.lastUpdated = some m.timestamp ∧
            ∀ b ∈ db.entriesFor item.product.id,
              b.timestamp ≤ m.timestamp) := by
  have hmapeq : db.getProductsWithLatestPrices.map
      ProductWithLatestPrice.product = db.products.insertionSort nameAsc := by
    unfold DBState.getProductsWithLatestPrices
    rw [List.map_map]
    have hcomp : (ProductWithLatestPrice.product ∘ db.itemFor) = id := by
      funext q
      simp [Function.comp, itemFor_product]
    rw [hcomp, List.map_id]
  refine ⟨?_, ?_, ?_⟩
  · unfold DBState.getProductsWithLatestPrices
    exact (List.sorted_insertionSort nameAsc db.products).map db.itemFor
      (fun a b hab => by
        show (db.itemFor a).product.name ≤ (db.itemFor b).product.name
        rw [itemFor_product, itemFor_product]
        exact hab)
  · rw [hmapeq]
    exact List.perm_insertionSort nameAsc db.products
  · intro item hitem
    unfold DBState.getProductsWithLatestPrices at hitem
    obtain ⟨p, hp, rfl⟩ := List.mem_map.mp hitem
    constructor
    · intro hemp
      rw [itemFor_product] at hemp
      have hnone : db.latestFor p.id = none :=
        (latestFor_none_iff db p.id).mpr hemp
      simp [DBState.itemFor, hnone]
    · intro hne
      rw [itemFor_product] at hne
      cases hl : db.latestFor p.id with
      | none => exact absurd ((latestFor_none_iff db p.id).mp hl) hne
      | some e =>
        obtain ⟨hmem, hmax⟩ := latestFor_mem_max hl
        refine ⟨e, ?_, ?_, ?_, ?_⟩
        · rw [itemFor_product]
          exact hmem
        · simp [DBState.itemFor, hl]
        · simp [DBState.itemFor, hl]
        · rw [itemFor_product]
          exact hmax

end PriceTrack
